import Mathlib

/-!
Shallow embedding of the target-resolution core of `cargo-show-asm`
(`src/opts.rs`): the `Focus` selector type, its matcher, its textual
rendering and compile-filter conversion, and the `select_package`
resolver, together with proofs of the specified properties.
-/

set_option maxHeartbeats 1000000

namespace ShowAsm

/-- Target kinds, mirroring the cargo `TargetKind` as used in `opts.rs`
(`Lib`, `Bin`, `Test`, `Bench`, `ExampleBin`, `ExampleLib`, `CustomBuild`);
the crate-type payloads of `Lib`/`ExampleLib` play no role here and are
dropped. -/
inductive TargetKind where
  | Lib
  | Bin
  | Test
  | Bench
  | ExampleBin
  | ExampleLib
  | CustomBuild
deriving DecidableEq, Repr

/-- A buildable target: a kind and a name (the cargo `Target`, restricted to
the fields `opts.rs` reads). -/
structure Target where
  kind : TargetKind
  name : String
deriving DecidableEq, Repr

/-- Modelled from the spec: the cargo method `Target::is_lib`, which is not
part of the sources of this repository. Per the matcher table of the spec,
`Lib` matches iff the kind of the target is Library. -/
def Target.is_lib (t : Target) : Bool :=
  t.kind = TargetKind.Lib

/-- Modelled from the spec: the cargo method `Target::is_test`. `Test(name)` matches
targets of kind Test. -/
def Target.is_test (t : Target) : Bool :=
  t.kind = TargetKind.Test

/-- Modelled from the spec: the cargo method `Target::is_bench`. `Bench(name)` matches
targets of kind Benchmark. -/
def Target.is_bench (t : Target) : Bool :=
  t.kind = TargetKind.Bench

/-- Modelled from the spec: the cargo method `Target::is_example`. Per the
table in the spec, `Example(name)` matches targets of kind Example (the spec
distinguishes Example from ExampleLibrary, and `ExampleLibrary` "kinds are
silently skipped ... not user-selectable foci"). -/
def Target.is_example (t : Target) : Bool :=
  t.kind = TargetKind.ExampleBin

/-- Modelled from the spec: the cargo method `Target::is_bin`. `Bin(name)` matches
targets of kind Binary. -/
def Target.is_bin (t : Target) : Bool :=
  t.kind = TargetKind.Bin

/-- The `Focus` enum of `opts.rs` (lines 121-149). -/
inductive Focus where
  | Lib
  | Test (t : String)
  | Bench (b : String)
  | Example (e : String)
  | Bin (b : String)
deriving DecidableEq, Repr

/-- The matcher `Focus::matches` (`opts.rs` lines 183-194). -/
def Focus.matches (f : Focus) (target : Target) : Bool :=
  match f with
  | .Lib => target.is_lib
  | .Test t => target.is_test && target.name = t
  | .Bench b => target.is_bench && target.name = b
  | .Example e => target.is_example && target.name = e
  | .Bin b => target.is_bin && target.name = b

/-- The rendering from `impl Display for Focus` (`opts.rs` lines 171-181). -/
def Focus.display (f : Focus) : String :=
  match f with
  | .Lib => "--lib"
  | .Test t => "--test " ++ t
  | .Bench b => "--bench " ++ b
  | .Example e => "--example " ++ e
  | .Bin b => "--bin " ++ b

/-- The command-line token list for a `Focus`, following the bpaf
declarations on the `Focus` enum (`opts.rs` lines 121-149): `--lib` is a
bare flag, while `--test`, `--bench`, `--example` and `--bin` each take one
argument. -/
def Focus.flagTokens (f : Focus) : List String :=
  match f with
  | .Lib => ["--lib"]
  | .Test t => ["--test", t]
  | .Bench b => ["--bench", b]
  | .Example e => ["--example", e]
  | .Bin b => ["--bin", b]

/-- Modelled from the spec: the focus fragment of the argument parser
(the parser generated by bpaf is not part of the sources of this
repository). It
accepts exactly the flag syntax declared on `Focus`: `--lib` alone, or one
of `--test`/`--bench`/`--example`/`--bin` followed by a name argument. -/
def parseFocus : List String → Option Focus
  | ["--lib"] => some .Lib
  | ["--test", t] => some (.Test t)
  | ["--bench", b] => some (.Bench b)
  | ["--example", e] => some (.Example e)
  | ["--bin", b] => some (.Bin b)
  | _ => none

/-- The raw arguments handed to the cargo function
`CompileFilter::from_raw_arguments` by `impl From<Focus> for CompileFilter`
(`opts.rs` lines 151-168), in the order they are passed: `lib_only`,
`bins`, `all_bins`, `tsts`, `all_tsts`, `exms`, `all_exms`, `bens`,
`all_bens`, `all_targets`. -/
structure CompileFilterRaw where
  lib_only : Bool
  bins : List String
  all_bins : Bool
  tsts : List String
  all_tsts : Bool
  exms : List String
  all_exms : Bool
  bens : List String
  all_bens : Bool
  all_targets : Bool
deriving DecidableEq, Repr

/-- The conversion `impl From<Focus> for CompileFilter` (`opts.rs` lines
151-168): all
fields start empty/false, then exactly one is set by the `match`. -/
def Focus.toCompileFilter (focus : Focus) : CompileFilterRaw :=
  let lib_only := false
  let bins : List String := []
  let tests : List String := []
  let examples : List String := []
  let benches : List String := []
  match focus with
  | .Lib => ⟨true, bins, false, tests, false, examples, false, benches, false, false⟩
  | .Test t => ⟨lib_only, bins, false, [t], false, examples, false, benches, false, false⟩
  | .Bench b => ⟨lib_only, bins, false, tests, false, examples, false, [b], false, false⟩
  | .Example e => ⟨lib_only, bins, false, tests, false, [e], false, benches, false, false⟩
  | .Bin b => ⟨lib_only, [b], false, tests, false, examples, false, benches, false, false⟩

/-- A package: a name and its ordered targets (the cargo `Package`,
restricted to the fields `opts.rs` reads). -/
structure Package where
  name : String
  targets : List Target
deriving DecidableEq, Repr

/-- The cargo `MaybePackage` type: the root of a workspace is either a concrete
package or a virtual manifest. -/
inductive MaybePackage where
  | package (p : Package)
  | virtualManifest
deriving DecidableEq, Repr

/-- A workspace: its root (`ws.root_maybe()`) and its member packages in
discovery order (`ws.members()`). -/
structure Workspace where
  root_maybe : MaybePackage
  members : List Package
deriving DecidableEq, Repr

/-- The fields of `Options` (`opts.rs` lines 22-52) read by
`select_package`: the manifest path (only echoed in one diagnostic), the
package hint `-p`, and the optional focus. -/
structure Options where
  manifest_path : String
  package : Option String
  focus : Option Focus
deriving DecidableEq, Repr

/-- The flag rendering of one target in the multiple-targets diagnostic
(`opts.rs` lines 248-258): `ExampleLib` and `CustomBuild` targets are
skipped (`continue`), every other kind renders its flag. -/
def targetFlag (t : Target) : Option String :=
  match t.kind with
  | .Lib => some "--lib"
  | .Bin => some ("--bin " ++ t.name)
  | .Test => some ("--test " ++ t.name)
  | .Bench => some ("--bench " ++ t.name)
  | .ExampleBin => some ("--example " ++ t.name)
  | .ExampleLib => none
  | .CustomBuild => none

/-- A diagnostic printed to stderr just before `std::process::exit(1)`;
each constructor records the data interpolated into the message. -/
inductive Diagnostic where
  /-- Message saying that the target specification (the focus rendering)
  did not match any packages. -/
  | noMatch (focus : Focus)
  /-- Message saying that multiple targets match the focus, followed by a
  suggestion line per candidate name, in candidate order. -/
  | multiMatch (focus : Focus) (candidates : List String)
  /-- Message saying that the manifest defines a virtual workspace package,
  followed by a suggestion line per member name, in member order. -/
  | virtualNoSelector (manifest_path : String) (memberNames : List String)
  /-- Message saying that the package defines multiple targets, followed by
  one flag rendering per listable target. -/
  | multiTarget (name : String) (listing : List String)
deriving DecidableEq, Repr

/-- Outcome of `select_package`: either a returned package name, or
process termination with exit code 1 after printing a diagnostic. -/
inductive SelectOutcome where
  | ok (name : String)
  | exit1 (diag : Diagnostic)
deriving DecidableEq, Repr

/-- The candidate list built on the no-hint-with-focus path
(`opts.rs` lines 201-208): for each member in order, for each of its
targets in order, push the name of the member whenever the focus matches. -/
def focusCandidates (focus : Focus) (ws : Workspace) : List String :=
  ws.members.flatMap fun p =>
    p.targets.filterMap fun t => if focus.matches t then some p.name else none

/-- The tail of `select_package` (`opts.rs` lines 243-262): with a resolved
package in hand, exit listing its targets when it has more than one target
and no focus was supplied, else return its name. -/
def resolvedPackage (opts : Options) (package : Package) : SelectOutcome :=
  if package.targets.length > 1 && opts.focus.isNone then
    .exit1 (.multiTarget package.name (package.targets.filterMap targetFlag))
  else
    .ok package.name

/-- The resolver `select_package` (`opts.rs` lines 196-263). The source
matches on the
pair `(ws.root_maybe(), &opts.package)` with arms `(Package(p), _)`,
`(Virtual(_), None)` and `(Virtual(_), Some(p))`; the equivalent nested
match is used here. -/
def select_package (opts : Options) (ws : Workspace) : SelectOutcome :=
  match ws.root_maybe with
  | .package p => resolvedPackage opts p
  | .virtualManifest =>
    match opts.package with
    | none =>
      match opts.focus with
      | some focus =>
        let candidates := focusCandidates focus ws
        if candidates.length = 0 then
          .exit1 (.noMatch focus)
        else if candidates.length = 1 then
          .ok (candidates.headD "")
        else
          .exit1 (.multiMatch focus candidates)
      | none =>
        .exit1 (.virtualNoSelector opts.manifest_path (ws.members.map Package.name))
    | some p =>
      match ws.members.find? (fun package => package.name = p) with
      | some package => resolvedPackage opts package
      | none => .ok p

/-! ### Helper lemmas -/

theorem countP_le_one_of_pairwise {α : Type} (l : List α) (p : α → Bool)
    (h : l.Pairwise (fun a b => p a = true → p b = true → False)) :
    l.countP p ≤ 1 := by
  induction l with
  | nil => simp
  | cons a l ih =>
    rcases List.pairwise_cons.mp h with ⟨ha, htl⟩
    by_cases hpa : p a = true
    · have hz : l.countP p = 0 := by
        rw [List.countP_eq_zero]
        intro b hb hpb
        exact ha b hb hpa hpb
      simp [List.countP_cons, hpa, hz]
    · simp only [List.countP_cons, hpa, if_false]
      simpa using ih htl

theorem filterMap_if_const {α β : Type} (l : List α) (m : α → Bool) (c : β) :
    (l.filterMap fun t => if m t then some c else none) =
      List.replicate (l.countP m) c := by
  induction l with
  | nil => rfl
  | cons a l ih =>
    by_cases h : m a = true <;>
      simp [List.countP_cons, h, ih, List.replicate_succ]

/-- Well-formedness of a package per the data model of the spec: at most one
library target, and targets uniquely named within their kind. -/
def Package.wf (p : Package) : Prop :=
  p.targets.countP (fun t => t.is_lib) ≤ 1 ∧
  p.targets.Pairwise (fun a b => a.kind = b.kind → a.name ≠ b.name)

instance (p : Package) : Decidable p.wf := by
  unfold Package.wf
  infer_instance

/-- In a well-formed package at most one target matches any given focus. -/
theorem countP_matches_le_one (focus : Focus) (p : Package) (hwf : p.wf) :
    p.targets.countP (fun t => focus.matches t) ≤ 1 := by
  rcases hwf with ⟨hlib, hpair⟩
  cases focus with
  | Lib => simpa [Focus.matches] using hlib
  | Test n =>
    refine countP_le_one_of_pairwise _ _ (hpair.imp ?_)
    intro a b hab ha hb
    simp only [Focus.matches, Target.is_test, Bool.and_eq_true, decide_eq_true_eq] at ha hb
    exact hab (ha.1.trans hb.1.symm) (ha.2.trans hb.2.symm)
  | Bench n =>
    refine countP_le_one_of_pairwise _ _ (hpair.imp ?_)
    intro a b hab ha hb
    simp only [Focus.matches, Target.is_bench, Bool.and_eq_true, decide_eq_true_eq] at ha hb
    exact hab (ha.1.trans hb.1.symm) (ha.2.trans hb.2.symm)
  | Example n =>
    refine countP_le_one_of_pairwise _ _ (hpair.imp ?_)
    intro a b hab ha hb
    simp only [Focus.matches, Target.is_example, Bool.and_eq_true, decide_eq_true_eq] at ha hb
    exact hab (ha.1.trans hb.1.symm) (ha.2.trans hb.2.symm)
  | Bin n =>
    refine countP_le_one_of_pairwise _ _ (hpair.imp ?_)
    intro a b hab ha hb
    simp only [Focus.matches, Target.is_bin, Bool.and_eq_true, decide_eq_true_eq] at ha hb
    exact hab (ha.1.trans hb.1.symm) (ha.2.trans hb.2.symm)

/-- The contribution of one well-formed package to the candidate list:
its name once when some target matches, nothing otherwise. -/
theorem package_candidates (focus : Focus) (p : Package) (hwf : p.wf) :
    (p.targets.filterMap fun t => if focus.matches t then some p.name else none) =
      if p.targets.any (fun t => focus.matches t) then [p.name] else [] := by
  rw [filterMap_if_const]
  have hle := countP_matches_le_one focus p hwf
  by_cases h : p.targets.any (fun t => focus.matches t) = true
  · have hpos : 0 < p.targets.countP (fun t => focus.matches t) := by
      rcases List.any_eq_true.mp h with ⟨t, ht, hm⟩
      exact List.countP_pos_iff.mpr ⟨t, ht, hm⟩
    have : p.targets.countP (fun t => focus.matches t) = 1 := le_antisymm hle hpos
    simp [h, this]
  · have hz : p.targets.countP (fun t => focus.matches t) = 0 := by
      rw [List.countP_eq_zero]
      intro t ht hm
      exact h (List.any_eq_true.mpr ⟨t, ht, hm⟩)
    simp [h, hz]

/-- Over well-formed members the candidate list is exactly the names of the
members owning a matching target, in member order. -/
theorem focusCandidates_eq_filter (focus : Focus) (members : List Package)
    (hwf : ∀ q ∈ members, q.wf) :
    focusCandidates focus ⟨.virtualManifest, members⟩ =
      (members.filter fun q => q.targets.any fun t => focus.matches t).map Package.name := by
  induction members with
  | nil => rfl
  | cons p l ih =>
    have hp : p.wf := hwf p (List.mem_cons_self p l)
    have hl : ∀ q ∈ l, q.wf := fun q hq => hwf q (List.mem_cons_of_mem p hq)
    show (p.targets.filterMap fun t => if focus.matches t then some p.name else none) ++
        focusCandidates focus ⟨.virtualManifest, l⟩ = _
    rw [package_candidates focus p hp, ih hl]
    by_cases h : p.targets.any (fun t => focus.matches t) = true <;>
      simp [List.filter_cons, h]

/-! ### Claim theorems -/

/-- C2: the matcher `Focus.matches` follows the table of the spec exactly:
`Lib` matches iff the kind of the target is Library; `Test(n)`, `Bench(n)`, `Example(n)` and
`Bin(n)` match iff the kind is exactly Test, Benchmark, Example and Binary
respectively and the name equals `n`; in particular `Example(n)` does not
match an ExampleLibrary target, and name comparison is exact equality. -/
theorem focus_matches_exact_table (f : Focus) (t : Target) :
    (f.matches t = true ↔
      match f with
      | .Lib => t.kind = .Lib
      | .Test n => t.kind = .Test ∧ t.name = n
      | .Bench n => t.kind = .Bench ∧ t.name = n
      | .Example n => t.kind = .ExampleBin ∧ t.name = n
      | .Bin n => t.kind = .Bin ∧ t.name = n) ∧
    (t.kind = .ExampleLib → f.matches t = false) := by
  constructor
  · cases f <;>
      simp [Focus.matches, Target.is_lib, Target.is_test, Target.is_bench,
        Target.is_example, Target.is_bin]
  · intro hk
    cases f <;>
      simp [Focus.matches, Target.is_lib, Target.is_test, Target.is_bench,
        Target.is_example, Target.is_bin, hk]

/-- Witness for C2: the focus for example "e" does not match an
ExampleLibrary target named "e". -/
theorem focus_matches_exact_table_witness :
    (Target.mk .ExampleLib "e").kind = .ExampleLib ∧
      Focus.matches (.Example "e") (Target.mk .ExampleLib "e") = false :=
  ⟨rfl, (focus_matches_exact_table (.Example "e") (Target.mk .ExampleLib "e")).2 rfl⟩

/-- C10: no focus of any variant matches a target of kind CustomBuild, so a
custom-build target never contributes a candidate package. -/
theorem custom_build_never_matches (f : Focus) (t : Target)
    (h : t.kind = .CustomBuild) : f.matches t = false := by
  cases f <;>
    simp [Focus.matches, Target.is_lib, Target.is_test, Target.is_bench,
      Target.is_example, Target.is_bin, h]

/-- Witness for C10 at a concrete custom-build target. -/
theorem custom_build_never_matches_witness :
    (Target.mk .CustomBuild "build-script-build").kind = .CustomBuild ∧
      Focus.matches (.Bin "build-script-build")
        (Target.mk .CustomBuild "build-script-build") = false :=
  ⟨rfl, custom_build_never_matches (.Bin "build-script-build")
    (Target.mk .CustomBuild "build-script-build") rfl⟩

/-- C8: each `Focus` renders to its canonical flag syntax (`--lib`,
`--test t`, `--bench b`, `--example e`, `--bin b`), and this rendering
round-trips with the flag syntax the argument parser accepts: the flag
token list parses back to the same focus and joins to the rendering. -/
theorem focus_display_flag_roundtrip :
    Focus.display .Lib = "--lib" ∧
    (∀ t, Focus.display (.Test t) = "--test " ++ t) ∧
    (∀ b, Focus.display (.Bench b) = "--bench " ++ b) ∧
    (∀ e, Focus.display (.Example e) = "--example " ++ e) ∧
    (∀ b, Focus.display (.Bin b) = "--bin " ++ b) ∧
    (∀ f : Focus, parseFocus f.flagTokens = some f ∧
      String.intercalate " " f.flagTokens = f.display) := by
  refine ⟨rfl, fun t => rfl, fun b => rfl, fun e => rfl, fun b => rfl, fun f => ?_⟩
  cases f <;> exact ⟨rfl, rfl⟩

/-- C9: the compile-filter conversion populates exactly one of the five
selector slots (the `lib_only` flag or a single-element bin/test/example/
bench list), leaves every `all_*` flag false, is total over the five
variants, and is injective. -/
theorem focus_to_compile_filter_exclusive_injective :
    (∀ f : Focus,
      (cond (f.toCompileFilter).lib_only 1 0) + (f.toCompileFilter).bins.length +
        (f.toCompileFilter).tsts.length + (f.toCompileFilter).exms.length +
        (f.toCompileFilter).bens.length = 1 ∧
      (f.toCompileFilter).all_bins = false ∧ (f.toCompileFilter).all_tsts = false ∧
      (f.toCompileFilter).all_exms = false ∧ (f.toCompileFilter).all_bens = false ∧
      (f.toCompileFilter).all_targets = false) ∧
    Function.Injective Focus.toCompileFilter := by
  constructor
  · intro f
    cases f <;> simp [Focus.toCompileFilter]
  · intro f g h
    cases f <;> cases g <;>
      simp_all [Focus.toCompileFilter]

/-- Witness for C9 at a concrete focus: exactly the bin list is populated,
and injectivity applies. -/
theorem focus_to_compile_filter_witness :
    ((Focus.Bin "x").toCompileFilter).all_targets = false ∧
      Focus.Bin "x" = Focus.Bin "x" :=
  ⟨(focus_to_compile_filter_exclusive_injective.1 (Focus.Bin "x")).2.2.2.2.2,
    focus_to_compile_filter_exclusive_injective.2 rfl⟩

/-- C1 counterexample: in a concrete workspace whose root package owns two
targets, with no focus supplied, `select_package` terminates with the
multiple-targets diagnostic instead of returning the name of the root
package. -/
theorem concrete_multi_target_exit_cex :
    select_package (Options.mk "Cargo.toml" none none)
        (Workspace.mk
          (.package (Package.mk "root" [Target.mk .Lib "root", Target.mk .Bin "tool"]))
          [Package.mk "root" [Target.mk .Lib "root", Target.mk .Bin "tool"]]) =
      .exit1 (.multiTarget "root" ["--lib", "--bin tool"]) ∧
    select_package (Options.mk "Cargo.toml" none none)
        (Workspace.mk
          (.package (Package.mk "root" [Target.mk .Lib "root", Target.mk .Bin "tool"]))
          [Package.mk "root" [Target.mk .Lib "root", Target.mk .Bin "tool"]]) ≠
      .ok "root" := by
  constructor <;> decide

/-- C1 (amended): in a concrete workspace `select_package` returns the name
of the root package whenever a focus was supplied or the root owns at most one
target; when the root owns two or more targets and no focus was supplied it
terminates with failure instead. -/
theorem concrete_workspace_returns_root (opts : Options) (ws : Workspace) (p : Package)
    (hroot : ws.root_maybe = .package p)
    (h : opts.focus.isSome = true ∨ p.targets.length ≤ 1) :
    select_package opts ws = .ok p.name := by
  have hcond : (p.targets.length > 1 && opts.focus.isNone) = false := by
    rcases h with h | h
    · simp [Option.isNone, Option.isSome] at h ⊢
      cases hf : opts.focus with
      | none => rw [hf] at h; simp at h
      | some f => simp
    · simp only [Bool.and_eq_false_iff]
      left
      simpa using Nat.not_lt.mpr h
  unfold select_package
  rw [hroot]
  show resolvedPackage opts p = .ok p.name
  unfold resolvedPackage
  rw [hcond]
  rfl

/-- Witness for the amended C1 at a single-target root package. -/
theorem concrete_workspace_returns_root_witness :
    (Workspace.mk (.package (Package.mk "root" [Target.mk .Lib "root"]))
        [Package.mk "root" [Target.mk .Lib "root"]]).root_maybe =
      .package (Package.mk "root" [Target.mk .Lib "root"]) ∧
    select_package (Options.mk "Cargo.toml" none none)
        (Workspace.mk (.package (Package.mk "root" [Target.mk .Lib "root"]))
          [Package.mk "root" [Target.mk .Lib "root"]]) = .ok "root" :=
  ⟨rfl, concrete_workspace_returns_root (Options.mk "Cargo.toml" none none)
    (Workspace.mk (.package (Package.mk "root" [Target.mk .Lib "root"]))
      [Package.mk "root" [Target.mk .Lib "root"]])
    (Package.mk "root" [Target.mk .Lib "root"]) rfl (Or.inr (by decide))⟩

/-- C4: in a virtual workspace with at least two members, no package hint
and no focus, `select_package` terminates with exit code 1 after printing
the name of every member package as a suggestion; it never returns
a value on this path. -/
theorem virtual_no_selector_exit (opts : Options) (ws : Workspace)
    (hvirt : ws.root_maybe = .virtualManifest)
    (hpkg : opts.package = none) (hfoc : opts.focus = none)
    (_hmem : 2 ≤ ws.members.length) :
    select_package opts ws =
      .exit1 (.virtualNoSelector opts.manifest_path (ws.members.map Package.name)) := by
  unfold select_package
  rw [hvirt, hpkg, hfoc]

/-- Witness for C4 on a two-member virtual workspace. -/
theorem virtual_no_selector_exit_witness :
    2 ≤ (Workspace.mk .virtualManifest
          [Package.mk "a" [Target.mk .Lib "a"], Package.mk "b" [Target.mk .Bin "tool"]]).members.length ∧
    select_package (Options.mk "Cargo.toml" none none)
        (Workspace.mk .virtualManifest
          [Package.mk "a" [Target.mk .Lib "a"], Package.mk "b" [Target.mk .Bin "tool"]]) =
      .exit1 (.virtualNoSelector "Cargo.toml" ["a", "b"]) :=
  ⟨by decide,
    virtual_no_selector_exit (Options.mk "Cargo.toml" none none)
      (Workspace.mk .virtualManifest
        [Package.mk "a" [Target.mk .Lib "a"], Package.mk "b" [Target.mk .Bin "tool"]])
      rfl rfl rfl (by decide)⟩

/-- C7: in a virtual workspace, a package hint that matches no member name
is returned verbatim rather than causing an error. -/
theorem unknown_hint_forwarded (opts : Options) (ws : Workspace) (hint : String)
    (hvirt : ws.root_maybe = .virtualManifest)
    (hhint : opts.package = some hint)
    (hnone : ∀ q ∈ ws.members, q.name ≠ hint) :
    select_package opts ws = .ok hint := by
  have hfind : ws.members.find? (fun package => package.name = hint) = none := by
    rw [List.find?_eq_none]
    intro q hq
    simp [hnone q hq]
  unfold select_package
  rw [hvirt, hhint]
  simp [hfind]

/-- Witness for C7: the hint "missing" matches no member and comes back
character for character. -/
theorem unknown_hint_forwarded_witness :
    (∀ q ∈ (Workspace.mk .virtualManifest [Package.mk "a" [Target.mk .Lib "a"]]).members,
      q.name ≠ "missing") ∧
    select_package (Options.mk "Cargo.toml" (some "missing") none)
        (Workspace.mk .virtualManifest [Package.mk "a" [Target.mk .Lib "a"]]) =
      .ok "missing" :=
  ⟨by decide,
    unknown_hint_forwarded (Options.mk "Cargo.toml" (some "missing") none)
      (Workspace.mk .virtualManifest [Package.mk "a" [Target.mk .Lib "a"]])
      "missing" rfl rfl (by decide)⟩

/-- C6: a package resolved through the concrete-root path or the found-hint
path that owns two or more targets, with no focus supplied, makes
`select_package` terminate with failure listing the flag rendering of
each target, with ExampleLibrary and CustomBuild targets omitted (and only
those omitted). -/
theorem multi_target_listing_exit (opts : Options) (ws : Workspace) (p : Package)
    (hfoc : opts.focus = none)
    (hpath : ws.root_maybe = .package p ∨
      (ws.root_maybe = .virtualManifest ∧ ∃ hint, opts.package = some hint ∧
        ws.members.find? (fun q => q.name = hint) = some p))
    (htgt : 2 ≤ p.targets.length) :
    select_package opts ws =
      .exit1 (.multiTarget p.name (p.targets.filterMap targetFlag)) ∧
    ∀ t : Target, targetFlag t = none ↔ (t.kind = .ExampleLib ∨ t.kind = .CustomBuild) := by
  have hres : resolvedPackage opts p =
      .exit1 (.multiTarget p.name (p.targets.filterMap targetFlag)) := by
    unfold resolvedPackage
    have h1 : p.targets.length > 1 := htgt
    simp [h1, hfoc]
  refine ⟨?_, ?_⟩
  · rcases hpath with hroot | ⟨hvirt, hint, hhint, hfind⟩
    · unfold select_package
      rw [hroot]
      exact hres
    · unfold select_package
      rw [hvirt, hhint]
      show (match ws.members.find? (fun package => package.name = hint) with
        | some package => resolvedPackage opts package
        | none => SelectOutcome.ok hint) =
          SelectOutcome.exit1 (.multiTarget p.name (p.targets.filterMap targetFlag))
      rw [hfind]
      exact hres
  · intro t
    rcases t with ⟨k, n⟩
    cases k <;> simp [targetFlag]

/-- Witness for C6 through the found-hint path, with an ExampleLib target
omitted from the listing. -/
theorem multi_target_listing_exit_witness :
    select_package (Options.mk "Cargo.toml" (some "c") none)
        (Workspace.mk .virtualManifest
          [Package.mk "c" [Target.mk .Lib "c", Target.mk .Test "t1", Target.mk .ExampleLib "ex"]]) =
      .exit1 (.multiTarget "c" ["--lib", "--test t1"]) ∧
    (targetFlag (Target.mk .ExampleLib "ex") = none ↔
      ((Target.mk .ExampleLib "ex").kind = .ExampleLib ∨
        (Target.mk .ExampleLib "ex").kind = .CustomBuild)) :=
  ⟨(multi_target_listing_exit (Options.mk "Cargo.toml" (some "c") none)
      (Workspace.mk .virtualManifest
        [Package.mk "c" [Target.mk .Lib "c", Target.mk .Test "t1", Target.mk .ExampleLib "ex"]])
      (Package.mk "c" [Target.mk .Lib "c", Target.mk .Test "t1", Target.mk .ExampleLib "ex"])
      rfl (Or.inr ⟨rfl, "c", rfl, by decide⟩) (by decide)).1,
    (multi_target_listing_exit (Options.mk "Cargo.toml" (some "c") none)
      (Workspace.mk .virtualManifest
        [Package.mk "c" [Target.mk .Lib "c", Target.mk .Test "t1", Target.mk .ExampleLib "ex"]])
      (Package.mk "c" [Target.mk .Lib "c", Target.mk .Test "t1", Target.mk .ExampleLib "ex"])
      rfl (Or.inr ⟨rfl, "c", rfl, by decide⟩) (by decide)).2 (Target.mk .ExampleLib "ex")⟩

/-- Reduction of `select_package` on the virtual-workspace, no-hint,
focus-present path. -/
theorem select_package_virtual_focus (mp : String) (focus : Focus)
    (members : List Package) :
    select_package (Options.mk mp none (some focus))
        (Workspace.mk .virtualManifest members) =
      (let candidates := focusCandidates focus (Workspace.mk .virtualManifest members)
       if candidates.length = 0 then .exit1 (.noMatch focus)
       else if candidates.length = 1 then .ok (candidates.headD "")
       else .exit1 (.multiMatch focus candidates)) := rfl

/-- C3: in a virtual workspace with no package hint, a focus that matches
at least one target in exactly one (well-formed) member package makes
`select_package` return the name of that package; no process exit
occurs. -/
theorem focus_unique_package_selected (mp : String) (focus : Focus)
    (members : List Package) (p : Package)
    (hwf : ∀ q ∈ members, q.wf)
    (hp : p ∈ members)
    (hmatch : p.targets.any (fun t => focus.matches t) = true)
    (huniq : members.countP (fun q => q.targets.any fun t => focus.matches t) = 1) :
    select_package (Options.mk mp none (some focus))
        (Workspace.mk .virtualManifest members) = .ok p.name := by
  have hcand : focusCandidates focus (Workspace.mk .virtualManifest members) = [p.name] := by
    rw [focusCandidates_eq_filter focus members hwf]
    have hlen : (members.filter fun q => q.targets.any fun t => focus.matches t).length = 1 := by
      rw [← List.countP_eq_length_filter]
      exact huniq
    obtain ⟨a, ha⟩ := List.length_eq_one.mp hlen
    have hpmem : p ∈ members.filter fun q => q.targets.any fun t => focus.matches t :=
      List.mem_filter.mpr ⟨hp, hmatch⟩
    rw [ha] at hpmem ⊢
    have hap : p = a := by simpa using hpmem
    rw [← hap]
    rfl
  rw [select_package_virtual_focus]
  simp [hcand]

/-- Witness for C3, the scenario given in the spec: a virtual workspace with
members A (a lib) and B (a binary "tool") and focus `--bin tool` resolves
to "B" with no hint. -/
theorem focus_unique_package_selected_witness :
    (∀ q ∈ [Package.mk "A" [Target.mk .Lib "A"], Package.mk "B" [Target.mk .Bin "tool"]],
      q.wf) ∧
    select_package (Options.mk "Cargo.toml" none (some (.Bin "tool")))
        (Workspace.mk .virtualManifest
          [Package.mk "A" [Target.mk .Lib "A"], Package.mk "B" [Target.mk .Bin "tool"]]) =
      .ok "B" :=
  ⟨by decide,
    focus_unique_package_selected "Cargo.toml" (.Bin "tool")
      [Package.mk "A" [Target.mk .Lib "A"], Package.mk "B" [Target.mk .Bin "tool"]]
      (Package.mk "B" [Target.mk .Bin "tool"])
      (by decide) (by decide) (by decide) (by decide)⟩

/-- C5: in a virtual workspace with no package hint, a focus matching
targets in two or more (well-formed) member packages makes
`select_package` terminate with failure, and the diagnostic lists exactly
the names of the matching packages, each matching package and no
non-matching one, in the discovery order of the workspace members. -/
theorem focus_ambiguous_exit (mp : String) (focus : Focus) (members : List Package)
    (hwf : ∀ q ∈ members, q.wf)
    (hcount : 2 ≤ members.countP (fun q => q.targets.any fun t => focus.matches t)) :
    select_package (Options.mk mp none (some focus))
        (Workspace.mk .virtualManifest members) =
      .exit1 (.multiMatch focus
        ((members.filter fun q => q.targets.any fun t => focus.matches t).map
          Package.name)) := by
  have hcand := focusCandidates_eq_filter focus members hwf
  have hlen : (focusCandidates focus (Workspace.mk .virtualManifest members)).length =
      members.countP (fun q => q.targets.any fun t => focus.matches t) := by
    rw [hcand, List.length_map, ← List.countP_eq_length_filter]
  have h0 : ¬ (focusCandidates focus (Workspace.mk .virtualManifest members)).length = 0 := by
    rw [hlen]; omega
  have h1 : ¬ (focusCandidates focus (Workspace.mk .virtualManifest members)).length = 1 := by
    rw [hlen]; omega
  rw [select_package_virtual_focus]
  simp only [hcand] at h0 h1 ⊢
  rw [if_neg h0, if_neg h1]

/-- Witness for C5: two members each owning a library target, focus
`--lib`; the diagnostic lists both member names in order. -/
theorem focus_ambiguous_exit_witness :
    (∀ q ∈ [Package.mk "a" [Target.mk .Lib "a"], Package.mk "b" [Target.mk .Lib "b"]],
      q.wf) ∧
    select_package (Options.mk "Cargo.toml" none (some .Lib))
        (Workspace.mk .virtualManifest
          [Package.mk "a" [Target.mk .Lib "a"], Package.mk "b" [Target.mk .Lib "b"]]) =
      .exit1 (.multiMatch .Lib ["a", "b"]) :=
  ⟨by decide, by
    have h := focus_ambiguous_exit "Cargo.toml" .Lib
      [Package.mk "a" [Target.mk .Lib "a"], Package.mk "b" [Target.mk .Lib "b"]]
      (by decide) (by decide)
    simpa using h⟩

end ShowAsm
